import Mathlib

/-!
Shallow embedding of the google-scholar-daily-fetcher pipeline:
the parser service (`parserService.js`), the search client
(`serpApiService.js`), the persistence gateway (`articleModel.js`),
the orchestrating controller (`fetchArticlesByAuthors`) and the
error-handler middleware, together with theorems about the claims
of the specification.

JavaScript strings are modelled as Lean `String`; the JS values
`null`/`undefined` are modelled as `Option.none`; JS numbers that flow
through the pipeline are `Nat` (years, ids, counters) or `Int`
(citation counts coming from the remote JSON).  Fallible collaborators
(the HTTP client, the database insert) are driven by explicit outcome
oracles so that every code path of the orchestrator is reachable.
-/

/-! ## JS string primitives -/

/-- The character class of the JS `\s` regex escape and of
`String.prototype.trim` (whitespace and line terminators). -/
def isJsSpace (c : Char) : Bool :=
  c = ' ' || c = '\t' || c = '\n' || c = '\r' || c = '\x0b' || c = '\x0c'
  || c = '\u00A0' || c = '\u1680' || (0x2000 ≤ c.toNat && c.toNat ≤ 0x200A)
  || c = '\u2028' || c = '\u2029' || c = '\u202F' || c = '\u205F'
  || c = '\u3000' || c = '\uFEFF'

/-- The character class of the JS `\w` escape, which also defines the
word boundary `\b`: ASCII letters, digits and underscore. -/
def isWordChar (c : Char) : Bool :=
  c.isAlpha || c.isDigit || c = '_'

/-- Remove trailing JS whitespace (the right half of `trim`). -/
def dropTrailingWs : List Char → List Char
  | [] => []
  | c :: rest =>
    let r := dropTrailingWs rest
    if r.isEmpty then (if isJsSpace c then [] else [c]) else c :: r

/-- JS `String.prototype.trim` on a character list. -/
def jsTrimL (l : List Char) : List Char :=
  dropTrailingWs (l.dropWhile isJsSpace)

/-- JS `String.prototype.trim`. -/
def jsTrim (s : String) : String :=
  String.mk (jsTrimL s.data)

/-- One pass of JS `s.replace(/\s+/g, ' ')`: the flag records whether
the scan stands inside a whitespace run whose single replacement space
has already been emitted. -/
def collapseWsAux : Bool → List Char → List Char
  | _, [] => []
  | inRun, c :: rest =>
    if isJsSpace c then
      (if inRun then [] else [' ']) ++ collapseWsAux true rest
    else c :: collapseWsAux false rest

/-- JS `s.replace(/\s+/g, ' ')`: collapse every maximal whitespace run
to a single space. -/
def collapseWs (l : List Char) : List Char :=
  collapseWsAux false l

/-- JS truthiness filter for an optional string: `null`, `undefined`
and `""` are falsy, so `x || null` maps them all to `null`. -/
def jsStrOrNull : Option String → Option String
  | none => none
  | some s => if s = "" then none else some s

/-- JS truthiness of a string. -/
def strTruthy (s : String) : Bool :=
  if s = "" then false else true

/-- Does `sub` occur as a prefix-at-some-position of `l`? -/
def listIncludes (sub : List Char) : List Char → Bool
  | [] => sub.isPrefixOf []
  | c :: rest => sub.isPrefixOf (c :: rest) || listIncludes sub rest

/-- JS `String.prototype.includes`. -/
def strIncludes (s sub : String) : Bool :=
  listIncludes sub.data s.data

/-- JS template interpolation of a possibly-null string (`null` prints
as `"null"`). -/
def jsStr : Option String → String
  | some s => s
  | none => "null"

/-- JS `toUpperCase` (the pipeline only compares ASCII format tags). -/
def jsUpper (s : String) : String :=
  String.mk (s.data.map Char.toUpper)

/-! ## parserService.parsePublicationInfo

The summary string is split on the literal `" - "`; segment 1 is
scanned with the JS regex `/\b(19|20)\d{2}\b/` for the year and, when a
year is found, the journal is the segment with the first occurrence of
`/,?\s*(19|20)\d{2}/` removed (that second regex carries no word
boundaries, which matters below).
-/

/-- The scan of `split(' - ')`: cut at each occurrence of the
separator, left to right, non-overlapping. -/
def splitDashAux : List Char → List Char → List (List Char)
  | [], acc => [acc.reverse]
  | [c], acc => [(c :: acc).reverse]
  | [c1, c2], acc => [(c2 :: c1 :: acc).reverse]
  | c1 :: c2 :: c3 :: rest, acc =>
    if c1 = ' ' ∧ c2 = '-' ∧ c3 = ' ' then
      acc.reverse :: splitDashAux rest []
    else
      splitDashAux (c2 :: c3 :: rest) (c1 :: acc)

/-- JS `summary.split(' - ')`. -/
def jsSplitDash (s : String) : List String :=
  (splitDashAux s.data []).map String.mk

/-- Numeric value of a decimal digit character. -/
def digitVal (c : Char) : Nat := c.toNat - '0'.toNat

/-- Try to read `(19|20)\d{2}` at the head of the list; on success
return the year value and the remainder. -/
def yearQuad? : List Char → Option (Nat × List Char)
  | c1 :: c2 :: c3 :: c4 :: rest =>
    if ((c1 = '1' ∧ c2 = '9') ∨ (c1 = '2' ∧ c2 = '0')) ∧ c3.isDigit ∧ c4.isDigit then
      some (1000 * digitVal c1 + 100 * digitVal c2 + 10 * digitVal c3 + digitVal c4, rest)
    else none
  | _ => none

/-- `\b` to the left of a match whose first character is a digit:
holds at the start of the string or after a non-word character. -/
def boundaryBefore : Option Char → Bool
  | none => true
  | some c => !isWordChar c

/-- `\b` to the right of a match whose last character is a digit. -/
def boundaryAfter : List Char → Bool
  | [] => true
  | c :: _ => !isWordChar c

/-- `sourceYear.match(/\b(19|20)\d{2}\b/)`: value of the leftmost
boundary-delimited year quadruple, scanning with the previous
character tracked for the left boundary. -/
def findYearFrom (prev : Option Char) : List Char → Option Nat
  | [] => none
  | c :: rest =>
    match yearQuad? (c :: rest) with
    | some (y, rem) =>
      if boundaryBefore prev ∧ boundaryAfter rem then some y
      else findYearFrom (some c) rest
    | none => findYearFrom (some c) rest

/-- Does `/,?\s*(19|20)\d{2}/` match at this position?  On success
return the remainder after the match.  (`,?` must be used when a comma
is present: with it skipped the next pattern atom cannot match the
comma, so the greedy reading is exact; likewise `\s*` is effectively
possessive because `\s` and the digits are disjoint.) -/
def matchStripAt (l : List Char) : Option (List Char) :=
  let l1 := if l.head? = some ',' then l.tail else l
  let l2 := l1.dropWhile isJsSpace
  (yearQuad? l2).map Prod.snd

/-- `sourceYear.replace(/,?\s*(19|20)\d{2}/, '')`: delete the leftmost
occurrence of the unanchored pattern. -/
def stripYearL : List Char → List Char
  | [] => []
  | c :: rest =>
    match matchStripAt (c :: rest) with
    | some rem => rem
    | none => c :: stripYearL rest

/-- Result shape of `parsePublicationInfo`. -/
structure PubInfo where
  authors : Option String
  journal : Option String
  year : Option Nat
  publisher : Option String
deriving DecidableEq, Repr

/-- `parserService.parsePublicationInfo(summary)`. -/
def parsePublicationInfo (summary : Option String) : PubInfo :=
  match summary with
  | none => ⟨none, none, none, none⟩
  | some s =>
    if s = "" then ⟨none, none, none, none⟩
    else
      let parts := jsSplitDash s
      let authors := jsStrOrNull ((parts.get? 0).map jsTrim)
      let jy : Option String × Option Nat :=
        match parts.get? 1 with
        | none => (none, none)
        | some p1 =>
          if p1 = "" then (none, none)
          else
            let sourceYear := jsTrim p1
            match findYearFrom none sourceYear.data with
            | some y => (some (jsTrim (String.mk (stripYearL sourceYear.data))), some y)
            | none => (some sourceYear, none)
      let publisher := jsStrOrNull ((parts.get? 2).map jsTrim)
      ⟨authors, jy.1, jy.2, publisher⟩

/-! ## parserService: organic-result parsing, validity, sanitization -/

/-- `inline_links.cited_by` of a raw SerpAPI result. -/
structure CitedBy where
  total : Option Int
  cites_id : Option String
deriving DecidableEq, Repr

/-- `inline_links.versions` of a raw SerpAPI result. -/
structure Versions where
  cluster_id : Option String
deriving DecidableEq, Repr

/-- `inline_links` of a raw SerpAPI result. -/
structure InlineLinks where
  cited_by : Option CitedBy
  versions : Option Versions
deriving DecidableEq, Repr

/-- One entry of the `resources` list of a raw SerpAPI result. -/
structure ResourceEntry where
  file_format : Option String
  link : Option String
deriving DecidableEq, Repr

/-- `publication_info` of a raw SerpAPI result. -/
structure PublicationInfoRaw where
  summary : Option String
deriving DecidableEq, Repr

/-- A raw organic result item as consumed by the parser. -/
structure RawResult where
  result_id : Option String
  title : Option String
  publication_info : Option PublicationInfoRaw
  link : Option String
  snippet : Option String
  inline_links : Option InlineLinks
  resources : Option (List ResourceEntry)
deriving DecidableEq, Repr

/-- A normalized publication record (the parser's output shape). -/
structure Publication where
  google_scholar_id : Option String
  title : Option String
  authors : Option String
  publication_year : Option Nat
  journal : Option String
  article_url : Option String
  abstract : Option String
  citation_count : Int
  cites_id : Option String
  pdf_url : Option String
  cluster_id : Option String
  publisher : Option String
deriving DecidableEq, Repr

/-- `parserService.extractPdfUrl(resources)`: first resource whose
`file_format` upper-cases to `"PDF"`. -/
def extractPdfUrl (resources : Option (List ResourceEntry)) : Option String :=
  match resources with
  | none => none
  | some rs =>
    match rs.find? (fun r => (r.file_format.map jsUpper) = some "PDF") with
    | some r => jsStrOrNull r.link
    | none => none

/-- The nested `inline_links?.cited_by?.total` access. -/
def citedByTotal (result : RawResult) : Option Int :=
  (result.inline_links.bind InlineLinks.cited_by).bind CitedBy.total

/-- `parserService.parseOrganicResult(result)`. -/
def parseOrganicResult (result : RawResult) : Publication :=
  let publicationInfo :=
    match result.publication_info with
    | some pi => parsePublicationInfo pi.summary
    | none => ⟨none, none, none, none⟩
  { google_scholar_id := jsStrOrNull result.result_id
    title := jsStrOrNull result.title
    authors := jsStrOrNull publicationInfo.authors
    publication_year :=
      match publicationInfo.year with
      | some 0 => none
      | y => y
    journal := jsStrOrNull publicationInfo.journal
    article_url := jsStrOrNull result.link
    abstract := jsStrOrNull result.snippet
    citation_count := ((result.inline_links.bind InlineLinks.cited_by).bind CitedBy.total).getD 0
    cites_id := jsStrOrNull ((result.inline_links.bind InlineLinks.cited_by).bind CitedBy.cites_id)
    pdf_url := extractPdfUrl result.resources
    cluster_id := jsStrOrNull ((result.inline_links.bind InlineLinks.versions).bind Versions.cluster_id)
    publisher := jsStrOrNull publicationInfo.publisher }

/-- `parserService.parseOrganicResults(results)`. -/
def parseOrganicResults (results : Option (List RawResult)) : List Publication :=
  match results with
  | none => []
  | some rs => rs.map parseOrganicResult

/-- `parserService.isValidPublication(publication)`:
`!!(publication.title && publication.google_scholar_id)`. -/
def isValidPublication (publication : Publication) : Bool :=
  (match publication.title with
   | some t => strTruthy t
   | none => false)
  && (match publication.google_scholar_id with
      | some g => strTruthy g
      | none => false)

/-- `parserService.filterValidPublications(publications)`. -/
def filterValidPublications (publications : List Publication) : List Publication :=
  publications.filter isValidPublication

/-- `parserService.sanitizeString(str)`: falsy input yields `null`,
otherwise whitespace runs are collapsed to single spaces and the ends
are trimmed. -/
def sanitizeString : Option String → Option String
  | none => none
  | some str =>
    if str = "" then none
    else some (String.mk (jsTrimL (collapseWs str.data)))

/-! ## serpApiService.search and the error-handler middleware

`search` performs one HTTP request.  The transport layer is modelled
as an oracle: the axios promise either resolves with a response body,
rejects with a response attached (an HTTP error status), or rejects
with no response (timeout / network failure).  All three paths of the
JS `try`/`catch` are reproduced — in particular the `throw` on an
embedded `error` field of a resolved body happens inside the `try`,
so it is re-caught by the function's own `catch`, which finds no
`error.response` and therefore wraps it as a network error.
-/

/-- A response body: an optional embedded `error` field plus the
payload consumed by the pipeline. -/
structure ResponseData where
  error : Option String
  organic_results : Option (List RawResult)
deriving DecidableEq, Repr

/-- Outcome of the axios GET underneath `serpApiService.search`. -/
inductive AxiosOutcome where
  | ok (data : ResponseData)
  | httpError (data : ResponseData) (message : String)
  | transportError (message : String)
deriving DecidableEq, Repr

/-- `serpApiService.search` (error translation only; query building
and pagination do not affect the modelled behaviour). -/
def serpSearch (outcome : AxiosOutcome) : Except String ResponseData :=
  match outcome with
  | .ok data =>
    match jsStrOrNull data.error with
    | some e => .error ("Network Error: " ++ e)
    | none => .ok data
  | .httpError data message =>
    .error ("SerpAPI Error: " ++ ((jsStrOrNull data.error).getD message))
  | .transportError message =>
    .error ("Network Error: " ++ message)

/-- `errorHandler` middleware: the HTTP status chosen for an error
message (the thrown errors of this pipeline carry no `status` or
`code` field, so the default is 500 before the message tests). -/
def errorStatus (message : String) : Nat :=
  let s := 500
  let s := if strIncludes message "SerpAPI Error" then 502 else s
  let s := if strIncludes message "Network Error" then 503 else s
  let s := if strIncludes message "required" then 400 else s
  s

/-! ## articleModel: persistence gateway -/

/-- A low-level database error: a driver code plus a message. -/
structure DbErr where
  code : String
  message : String
deriving DecidableEq, Repr

/-- Oracle for one INSERT attempt. -/
inductive InsertOutcome where
  | ok
  | fail (e : DbErr)
deriving DecidableEq, Repr

/-- The message `articleModel.create` throws for `ER_DUP_ENTRY`
(the quotation marks of the template literal are elided). -/
def dupMessage (googleScholarId : Option String) : String :=
  "Article with google_scholar_id " ++ jsStr googleScholarId ++ " already exists"

/-- `articleModel.create(articleData)`: on success the inserted id;
on a driver error, `ER_DUP_ENTRY` is rewrapped as an
already-exists message and anything else is rethrown unchanged. -/
def createResult (nextId : Nat) (googleScholarId : Option String)
    (outcome : InsertOutcome) : Except String Nat :=
  match outcome with
  | .ok => .ok nextId
  | .fail e =>
    if e.code = "ER_DUP_ENTRY" then .error (dupMessage googleScholarId)
    else .error e.message

/-! ## authorArticleController.fetchArticlesByAuthors (the orchestrator) -/

/-- A reference pushed into the per-author `articles` list on save. -/
structure SavedArticleRef where
  id : Nat
  google_scholar_id : Option String
  title : Option String
  citation_count : Int
deriving DecidableEq, Repr

/-- A reference pushed into the run-level `articles_saved` list. -/
structure RunSavedRef where
  article_id : Nat
  title : Option String
  author_searched : String
deriving DecidableEq, Repr

/-- Per-author sub-summary (`authorResult` in the controller). -/
structure AuthorResult where
  author : String
  fetched : Nat
  saved : Nat
  already_exists : Nat
  articles : List SavedArticleRef
  error : Option String
deriving DecidableEq, Repr

/-- Run-level accumulators of the `results` object (the per-author
array is threaded separately). -/
structure RunTotals where
  total_fetched : Nat
  total_saved : Nat
  total_already_exists : Nat
  articles_saved : List RunSavedRef
deriving DecidableEq, Repr

/-- The storage backend: the `google_scholar_id`s of the stored,
non-deleted rows, and the auto-increment counter. -/
structure RunState where
  store : List String
  nextId : Nat
deriving DecidableEq, Repr

/-- Environment for one author: the transport outcome of the search
and the driver outcome of each successive INSERT attempt (exhausted
entries default to success). -/
structure AuthorEnv where
  axios : AxiosOutcome
  insertOutcomes : List InsertOutcome
deriving DecidableEq, Repr

/-- `articleModel.existsByGoogleScholarId`. -/
def existsByGoogleScholarId (st : RunState) (googleScholarId : Option String) : Bool :=
  st.store.contains (jsStr googleScholarId)

/-- The database-ready article built inline by the controller. -/
structure DbArticle where
  google_scholar_id : Option String
  paper_title : Option String
  authors : Option String
  publication_year : Option Nat
  journal : Option String
  article_url : Option String
  abstract_text : Option String
  citation_count : Int
  cites_id : Option String
  pdf_url : Option String
  publisher : Option String
deriving DecidableEq, Repr

/-- The `dbArticle` object literal of the controller. -/
def toDbArticle (article : Publication) : DbArticle :=
  { google_scholar_id := article.google_scholar_id
    paper_title := sanitizeString article.title
    authors := sanitizeString article.authors
    publication_year := article.publication_year
    journal := sanitizeString article.journal
    article_url := article.article_url
    abstract_text := sanitizeString article.abstract
    -- the source guards this with `|| 0`, which on an integer value
    -- only maps 0 to 0 and is therefore the identity here
    citation_count := article.citation_count
    cites_id := article.cites_id
    pdf_url := article.pdf_url
    publisher := sanitizeString article.publisher }

/-- Head of the insert-outcome oracle (default: success). -/
def nextOutcome : List InsertOutcome → InsertOutcome × List InsertOutcome
  | [] => (.ok, [])
  | o :: rest => (o, rest)

/-- The inner `for (const article of validArticles)` loop of the
controller: existence check, insert, counter updates, 3-save cap. -/
def saveLoop (authorName : String) :
    List Publication → Nat → List InsertOutcome → AuthorResult → RunTotals → RunState →
    AuthorResult × RunTotals × RunState
  | [], _, _, ar, tot, st => (ar, tot, st)
  | article :: restArts, savedCount, outcomes, ar, tot, st =>
    if savedCount ≥ 3 then (ar, tot, st)
    else
      if existsByGoogleScholarId st article.google_scholar_id then
        saveLoop authorName restArts savedCount outcomes
          { ar with already_exists := ar.already_exists + 1 }
          { tot with total_already_exists := tot.total_already_exists + 1 }
          st
      else
        let dbArticle := toDbArticle article
        let o := (nextOutcome outcomes).1
        let outcomes1 := (nextOutcome outcomes).2
        match createResult st.nextId dbArticle.google_scholar_id o with
        | .ok articleId =>
          saveLoop authorName restArts (savedCount + 1) outcomes1
            { ar with
                saved := ar.saved + 1
                articles := ar.articles ++
                  [{ id := articleId
                     google_scholar_id := dbArticle.google_scholar_id
                     title := dbArticle.paper_title
                     citation_count := dbArticle.citation_count }] }
            { tot with
                total_saved := tot.total_saved + 1
                articles_saved := tot.articles_saved ++
                  [{ article_id := articleId
                     title := dbArticle.paper_title
                     author_searched := authorName }] }
            { store := jsStr article.google_scholar_id :: st.store
              nextId := st.nextId + 1 }
        | .error msg =>
          if strIncludes msg "already exists" then
            saveLoop authorName restArts savedCount outcomes1
              { ar with already_exists := ar.already_exists + 1 }
              { tot with total_already_exists := tot.total_already_exists + 1 }
              st
          else
            saveLoop authorName restArts savedCount outcomes1 ar tot st

/-- The fresh `authorResult` object. -/
def initAuthorResult (name : String) : AuthorResult :=
  { author := name, fetched := 0, saved := 0, already_exists := 0
    articles := [], error := none }

/-- The per-author body of the controller's `for (const authorName of
authorList)` loop (the `try`/`catch` around the search, the
empty-result check, parse, filter, and the save loop). -/
def processAuthor (name : String) (env : AuthorEnv) (tot : RunTotals) (st : RunState) :
    AuthorResult × RunTotals × RunState :=
  match serpSearch env.axios with
  | .error msg => ({ initAuthorResult name with error := some msg }, tot, st)
  | .ok searchData =>
    match searchData.organic_results with
    | none => ({ initAuthorResult name with error := some "No articles found" }, tot, st)
    | some rs =>
      if rs.length = 0 then
        ({ initAuthorResult name with error := some "No articles found" }, tot, st)
      else
        let parsedArticles := parseOrganicResults (some rs)
        let validArticles := filterValidPublications parsedArticles
        let ar1 := { initAuthorResult name with fetched := validArticles.length }
        let tot1 := { tot with total_fetched := tot.total_fetched + validArticles.length }
        saveLoop name validArticles 0 env.insertOutcomes ar1 tot1 st

/-- Sequential processing of the author list, threading the run
totals and the storage state. -/
def processAuthors : List (String × AuthorEnv) → RunTotals → RunState →
    List AuthorResult × RunTotals × RunState
  | [], tot, st => ([], tot, st)
  | p :: rest, tot, st =>
    let r1 := processAuthor p.1 p.2 tot st
    let r2 := processAuthors rest r1.2.1 r1.2.2
    (r1.1 :: r2.1, r2.2.1, r2.2.2)

/-- The scan of `split(',')`. -/
def splitCommaAux : List Char → List Char → List (List Char)
  | [], acc => [acc.reverse]
  | c :: rest, acc =>
    if c = ',' then acc.reverse :: splitCommaAux rest []
    else splitCommaAux rest (c :: acc)

/-- JS `authors.split(',')`. -/
def jsSplitComma (s : String) : List String :=
  (splitCommaAux s.data []).map String.mk

/-- JS `authors.split(',').map(a => a.trim()).filter(a => a)`. -/
def parseAuthorList (authors : String) : List String :=
  ((jsSplitComma authors).map jsTrim).filter strTruthy

/-- The run totals object at the start of a run. -/
def initTotals : RunTotals :=
  { total_fetched := 0, total_saved := 0, total_already_exists := 0, articles_saved := [] }

/-- Pair each author name with its environment, in list order. -/
def runPairs (authorList : List String) (envs : Nat → AuthorEnv) :
    List (String × AuthorEnv) :=
  authorList.enum.map (fun p => (p.2, envs p.1))

/-- The controller's HTTP reply: a 400 with an error message, or a
200 carrying the run summary. -/
inductive ApiResponse where
  | badRequest (error : String)
  | okResponse (message : String) (total_fetched total_saved total_already_exists : Nat)
      (authors : List AuthorResult) (articles_saved : List RunSavedRef)
deriving DecidableEq, Repr

/-- `authorArticleController.fetchArticlesByAuthors`: validation of
the `authors` query parameter, then the per-author pipeline. -/
def fetchArticlesByAuthors (authors : Option String) (envs : Nat → AuthorEnv)
    (st : RunState) : ApiResponse :=
  match jsStrOrNull authors with
  | none =>
    .badRequest "Query parameter \"authors\" is required (comma-separated list of 3 author names)"
  | some authorsStr =>
    let authorList := parseAuthorList authorsStr
    if authorList.length ≠ 3 then
      .badRequest "Exactly 3 author names are required, separated by commas"
    else
      let r := processAuthors (runPairs authorList envs) initTotals st
      .okResponse ("Processed " ++ toString authorList.length ++ " authors")
        r.2.1.total_fetched r.2.1.total_saved r.2.1.total_already_exists
        r.1 r.2.1.articles_saved

/-- Is the reply the 200 summary? -/
def respIsOk : ApiResponse → Bool
  | .okResponse .. => true
  | .badRequest _ => false

/-- The per-author breakdown of a 200 reply. -/
def respAuthors : ApiResponse → List AuthorResult
  | .okResponse _ _ _ _ ars _ => ars
  | .badRequest _ => []

/-- `summary.total_saved` of a 200 reply. -/
def respTotalSaved : ApiResponse → Nat
  | .okResponse _ _ ts _ _ _ => ts
  | .badRequest _ => 0

/-- `summary.total_already_exists` of a 200 reply. -/
def respTotalAlready : ApiResponse → Nat
  | .okResponse _ _ _ ta _ _ => ta
  | .badRequest _ => 0

/-! ## Counter invariants of the save loop -/

/-- Every increment of a per-author counter in the save loop is paired
with the corresponding run-level increment. -/
theorem saveLoop_totals (authorName : String) (arts : List Publication) :
    ∀ savedCount outcomes ar tot st,
      (saveLoop authorName arts savedCount outcomes ar tot st).2.1.total_saved + ar.saved
        = (saveLoop authorName arts savedCount outcomes ar tot st).1.saved + tot.total_saved ∧
      (saveLoop authorName arts savedCount outcomes ar tot st).2.1.total_already_exists
          + ar.already_exists
        = (saveLoop authorName arts savedCount outcomes ar tot st).1.already_exists
          + tot.total_already_exists := by
  induction arts with
  | nil =>
    intro savedCount outcomes ar tot st
    simp only [saveLoop]
    omega
  | cons article rest ih =>
    intro savedCount outcomes ar tot st
    simp only [saveLoop]
    split
    · simp only
      omega
    · split
      · have h := ih savedCount outcomes
          { ar with already_exists := ar.already_exists + 1 }
          { tot with total_already_exists := tot.total_already_exists + 1 } st
        simp only at h
        omega
      · split
        · rename_i articleId heq
          have h := ih (savedCount + 1) (nextOutcome outcomes).2
            { ar with
                saved := ar.saved + 1
                articles := ar.articles ++
                  [{ id := articleId
                     google_scholar_id := (toDbArticle article).google_scholar_id
                     title := (toDbArticle article).paper_title
                     citation_count := (toDbArticle article).citation_count }] }
            { tot with
                total_saved := tot.total_saved + 1
                articles_saved := tot.articles_saved ++
                  [{ article_id := articleId
                     title := (toDbArticle article).paper_title
                     author_searched := authorName }] }
            { store := jsStr article.google_scholar_id :: st.store
              nextId := st.nextId + 1 }
          simp only at h
          omega
        · rename_i msg heq
          split
          · have h := ih savedCount (nextOutcome outcomes).2
              { ar with already_exists := ar.already_exists + 1 }
              { tot with total_already_exists := tot.total_already_exists + 1 } st
            simp only at h
            omega
          · have h := ih savedCount (nextOutcome outcomes).2 ar tot st
            omega

/-- The save loop never pushes `saved` above 3: `savedCount` mirrors
the per-author `saved` counter and the loop breaks at 3. -/
theorem saveLoop_saved_le (authorName : String) (arts : List Publication) :
    ∀ savedCount outcomes ar tot st,
      ar.saved = savedCount → savedCount ≤ 3 →
      (saveLoop authorName arts savedCount outcomes ar tot st).1.saved ≤ 3 := by
  induction arts with
  | nil =>
    intro savedCount outcomes ar tot st h1 h2
    simpa only [saveLoop] using h1 ▸ h2
  | cons article rest ih =>
    intro savedCount outcomes ar tot st h1 h2
    simp only [saveLoop]
    split
    · simpa only using h1 ▸ h2
    · split
      · exact ih savedCount outcomes _ _ st (by simpa only using h1) h2
      · split
        · rename_i articleId heq
          rename_i hlt _ _
          refine ih (savedCount + 1) (nextOutcome outcomes).2 _ _ _ (by simpa only using by omega) ?_
          omega
        · rename_i msg heq
          split
          · exact ih savedCount (nextOutcome outcomes).2 _ _ st (by simpa only using h1) h2
          · exact ih savedCount (nextOutcome outcomes).2 ar tot st h1 h2

/-- Per-author processing adds exactly the author's `saved` and
`already_exists` to the run totals. -/
theorem processAuthor_totals (name : String) (env : AuthorEnv) (tot : RunTotals)
    (st : RunState) :
    (processAuthor name env tot st).2.1.total_saved
      = tot.total_saved + (processAuthor name env tot st).1.saved ∧
    (processAuthor name env tot st).2.1.total_already_exists
      = tot.total_already_exists + (processAuthor name env tot st).1.already_exists := by
  unfold processAuthor
  cases hs : serpSearch env.axios with
  | error msg => simp [initAuthorResult]
  | ok searchData =>
    cases ho : searchData.organic_results with
    | none => simp [ho, initAuthorResult]
    | some rs =>
      simp only [ho]
      by_cases hl : rs.length = 0
      · simp [hl, initAuthorResult]
      · simp only [hl, if_false, initAuthorResult]
        have h := saveLoop_totals name
          (filterValidPublications (parseOrganicResults (some rs))) 0 env.insertOutcomes
          { author := name
            fetched := (filterValidPublications (parseOrganicResults (some rs))).length
            saved := 0, already_exists := 0, articles := [], error := none }
          { total_fetched := tot.total_fetched
              + (filterValidPublications (parseOrganicResults (some rs))).length
            total_saved := tot.total_saved
            total_already_exists := tot.total_already_exists
            articles_saved := tot.articles_saved }
          st
        simp only at h
        constructor <;> omega

/-- Per-author processing keeps the author's `saved` at or below 3. -/
theorem processAuthor_saved_le (name : String) (env : AuthorEnv) (tot : RunTotals)
    (st : RunState) :
    (processAuthor name env tot st).1.saved ≤ 3 := by
  unfold processAuthor
  cases hs : serpSearch env.axios with
  | error msg => simp [initAuthorResult]
  | ok searchData =>
    cases ho : searchData.organic_results with
    | none => simp [ho, initAuthorResult]
    | some rs =>
      simp only [ho]
      by_cases hl : rs.length = 0
      · simp [hl, initAuthorResult]
      · simp only [hl, if_false, initAuthorResult]
        exact saveLoop_saved_le name _ 0 env.insertOutcomes _ _ st rfl (by omega)

/-- Run-level totals accumulate the per-author counters over the
author list. -/
theorem processAuthors_totals (pairs : List (String × AuthorEnv)) :
    ∀ tot st,
      (processAuthors pairs tot st).2.1.total_saved
        = tot.total_saved + (((processAuthors pairs tot st).1).map AuthorResult.saved).sum ∧
      (processAuthors pairs tot st).2.1.total_already_exists
        = tot.total_already_exists
          + (((processAuthors pairs tot st).1).map AuthorResult.already_exists).sum := by
  induction pairs with
  | nil => intro tot st; simp [processAuthors]
  | cons p rest ih =>
    intro tot st
    simp only [processAuthors, List.map_cons, List.sum_cons]
    have h1 := processAuthor_totals p.1 p.2 tot st
    have h2 := ih (processAuthor p.1 p.2 tot st).2.1 (processAuthor p.1 p.2 tot st).2.2
    constructor <;> omega

/-- Every author result produced by the run has `saved ≤ 3`. -/
theorem processAuthors_saved_le (pairs : List (String × AuthorEnv)) :
    ∀ tot st ar, ar ∈ (processAuthors pairs tot st).1 → ar.saved ≤ 3 := by
  induction pairs with
  | nil => intro tot st ar h; simp [processAuthors] at h
  | cons p rest ih =>
    intro tot st ar h
    simp only [processAuthors, List.mem_cons] at h
    rcases h with h | h
    · exact h ▸ processAuthor_saved_le p.1 p.2 tot st
    · exact ih _ _ ar h

/-- The run produces one sub-summary per author. -/
theorem processAuthors_length (pairs : List (String × AuthorEnv)) :
    ∀ tot st, (processAuthors pairs tot st).1.length = pairs.length := by
  induction pairs with
  | nil => intro tot st; simp [processAuthors]
  | cons p rest ih =>
    intro tot st
    simp [processAuthors, ih]

/-- C1: in every completed run no author's `saved` count exceeds 3,
however many valid non-duplicate candidates were available; and a
candidate that already exists in storage increments `already_exists`
both per-author and run-level while leaving the save-slot counter
untouched. -/
theorem c1_author_save_cap :
    (∀ (authors : Option String) (envs : Nat → AuthorEnv) (st : RunState),
        respIsOk (fetchArticlesByAuthors authors envs st) = true →
        ∀ ar ∈ respAuthors (fetchArticlesByAuthors authors envs st), ar.saved ≤ 3) ∧
    (∀ (name : String) (article : Publication) (rest : List Publication)
        (savedCount : Nat) (outcomes : List InsertOutcome)
        (ar : AuthorResult) (tot : RunTotals) (st : RunState),
        savedCount < 3 →
        existsByGoogleScholarId st article.google_scholar_id = true →
        saveLoop name (article :: rest) savedCount outcomes ar tot st =
          saveLoop name rest savedCount outcomes
            { ar with already_exists := ar.already_exists + 1 }
            { tot with total_already_exists := tot.total_already_exists + 1 } st) := by
  constructor
  · intro authors envs st h ar har
    unfold fetchArticlesByAuthors at h har
    cases hjs : jsStrOrNull authors with
    | none => rw [hjs] at h; simp [respIsOk] at h
    | some s =>
      rw [hjs] at h har
      simp only at h har
      by_cases hlen : (parseAuthorList s).length ≠ 3
      · rw [if_pos hlen] at h; simp [respIsOk] at h
      · rw [if_neg hlen] at har
        simp only [respAuthors] at har
        exact processAuthors_saved_le _ _ _ ar har
  · intro name article rest savedCount outcomes ar tot st hlt hex
    simp only [saveLoop, if_neg (by omega : ¬ savedCount ≥ 3), hex, if_true]

/-- C2: at the end of every completed run the run-level `total_saved`
is the sum of the per-author `saved` counts and `total_already_exists`
is the sum of the per-author `already_exists` counts, over the three
per-author sub-summaries. -/
theorem c2_run_totals (authors : Option String) (envs : Nat → AuthorEnv) (st : RunState)
    (h : respIsOk (fetchArticlesByAuthors authors envs st) = true) :
    respTotalSaved (fetchArticlesByAuthors authors envs st)
      = ((respAuthors (fetchArticlesByAuthors authors envs st)).map AuthorResult.saved).sum ∧
    respTotalAlready (fetchArticlesByAuthors authors envs st)
      = ((respAuthors (fetchArticlesByAuthors authors envs st)).map
          AuthorResult.already_exists).sum ∧
    (respAuthors (fetchArticlesByAuthors authors envs st)).length = 3 := by
  unfold fetchArticlesByAuthors at *
  cases hjs : jsStrOrNull authors with
  | none => rw [hjs] at h; simp [respIsOk] at h
  | some s =>
    rw [hjs] at h
    simp only at h ⊢
    by_cases hlen : (parseAuthorList s).length ≠ 3
    · rw [if_pos hlen] at h; simp [respIsOk] at h
    · rw [if_neg hlen] at h ⊢
      simp only [respTotalSaved, respTotalAlready, respAuthors]
      have ht := processAuthors_totals (runPairs (parseAuthorList s) envs) initTotals st
      have hlen2 := processAuthors_length (runPairs (parseAuthorList s) envs) initTotals st
      refine ⟨?_, ?_, ?_⟩
      · have : initTotals.total_saved = 0 := rfl
        omega
      · have : initTotals.total_already_exists = 0 := rfl
        omega
      · rw [hlen2]
        simp only [runPairs, List.length_map, List.enum_length]
        omega

/-! ## Concrete run environments used by the witnesses -/

/-- A minimal valid raw result with the given external id. -/
def mkRaw (i : String) : RawResult :=
  { result_id := some i, title := some ("T" ++ i), publication_info := none,
    link := none, snippet := none, inline_links := none, resources := none }

/-- A search body with five valid, pairwise-distinct results. -/
def srchFive : ResponseData :=
  { error := none,
    organic_results := some [mkRaw "g1", mkRaw "g2", mkRaw "g3", mkRaw "g4", mkRaw "g5"] }

/-- Environment: the search succeeds with five candidates. -/
def envFive : AuthorEnv := { axios := .ok srchFive, insertOutcomes := [] }

/-- Environment: the search succeeds with no results. -/
def envEmpty : AuthorEnv :=
  { axios := .ok { error := none, organic_results := none }, insertOutcomes := [] }

/-- Environment: the search fails in transport. -/
def envDown : AuthorEnv :=
  { axios := .transportError "socket hang up", insertOutcomes := [] }

/-- First author sees five candidates, the others see none. -/
def envsW : Nat → AuthorEnv := fun n => if n = 0 then envFive else envEmpty

/-- The first two authors see the same five candidates. -/
def envs2W : Nat → AuthorEnv :=
  fun n => if n = 0 then envFive else if n = 1 then envFive else envEmpty

/-- An empty storage backend. -/
def stW : RunState := { store := [], nextId := 1 }

/-- C1 witness: in the concrete five-candidate run the first author's
sub-summary (computed by the run) indeed keeps `saved` at the cap. -/
theorem c1_author_save_cap_w :
    ({ author := "A", fetched := 5, saved := 3, already_exists := 0,
       articles :=
         [{ id := 1, google_scholar_id := some "g1", title := some "Tg1", citation_count := 0 },
          { id := 2, google_scholar_id := some "g2", title := some "Tg2", citation_count := 0 },
          { id := 3, google_scholar_id := some "g3", title := some "Tg3", citation_count := 0 }],
       error := none } : AuthorResult).saved ≤ 3 :=
  c1_author_save_cap.1 (some "A,B,C") envsW stW (by decide) _ (by decide)

/-- C2 witness: the totals equation holds on a concrete run in which
both saves and duplicate hits occur. -/
theorem c2_run_totals_w :
    respTotalSaved (fetchArticlesByAuthors (some "A,B,C") envs2W stW)
      = ((respAuthors (fetchArticlesByAuthors (some "A,B,C") envs2W stW)).map
          AuthorResult.saved).sum ∧
    respTotalAlready (fetchArticlesByAuthors (some "A,B,C") envs2W stW)
      = ((respAuthors (fetchArticlesByAuthors (some "A,B,C") envs2W stW)).map
          AuthorResult.already_exists).sum ∧
    (respAuthors (fetchArticlesByAuthors (some "A,B,C") envs2W stW)).length = 3 :=
  c2_run_totals (some "A,B,C") envs2W stW (by decide)

/-- C3: when the `authors` string does not yield exactly three
non-empty names, the run replies with one of the two fixed validation
errors, and its reply does not depend on the search environment or on
the storage state — no network call or storage operation can have
influenced it. -/
theorem c3_validation (s : String) (h : (parseAuthorList s).length ≠ 3) :
    ∀ (envs envs2 : Nat → AuthorEnv) (st st2 : RunState),
      fetchArticlesByAuthors (some s) envs st = fetchArticlesByAuthors (some s) envs2 st2 ∧
      (fetchArticlesByAuthors (some s) envs st
          = .badRequest
              "Query parameter \"authors\" is required (comma-separated list of 3 author names)"
        ∨ fetchArticlesByAuthors (some s) envs st
          = .badRequest "Exactly 3 author names are required, separated by commas") := by
  intro envs envs2 st st2
  by_cases hs : s = ""
  · subst hs
    exact ⟨rfl, Or.inl rfl⟩
  · have hjs : jsStrOrNull (some s) = some s := by simp [jsStrOrNull, hs]
    unfold fetchArticlesByAuthors
    rw [hjs]
    simp only [if_pos h]
    exact ⟨trivial, Or.inr trivial⟩

/-- C3 witness: a two-name input is rejected identically under two
different environments and storage states. -/
theorem c3_validation_w :
    fetchArticlesByAuthors (some "a,b") envsW stW
        = fetchArticlesByAuthors (some "a,b") envs2W { store := ["g1"], nextId := 7 } ∧
    (fetchArticlesByAuthors (some "a,b") envsW stW
        = .badRequest
            "Query parameter \"authors\" is required (comma-separated list of 3 author names)"
      ∨ fetchArticlesByAuthors (some "a,b") envsW stW
        = .badRequest "Exactly 3 author names are required, separated by commas") :=
  c3_validation "a,b" (by decide) envsW envs2W stW { store := ["g1"], nextId := 7 }

/-- A failing search is caught per author: the sub-summary carries the
thrown message and neither the totals nor the storage state move. -/
theorem processAuthor_error (name : String) (env : AuthorEnv) (m : String)
    (h : serpSearch env.axios = .error m) (tot : RunTotals) (st : RunState) :
    processAuthor name env tot st
      = ({ initAuthorResult name with error := some m }, tot, st) := by
  unfold processAuthor
  rw [h]

/-- C4: when one of the three authors' searches raises, the run still
completes with a 200 summary; the failing author's sub-summary is the
fresh record carrying the failure message, the state is untouched by
that author, and the remaining authors are processed by the normal
pipeline on the state produced by the authors before the failing
one. -/
theorem c4_partial_failure (s : String) (envs : Nat → AuthorEnv) (st : RunState)
    (k : Nat) (m : String)
    (h3 : (parseAuthorList s).length = 3) (hk : k < 3)
    (hfail : serpSearch (envs k).axios = Except.error m) :
    respIsOk (fetchArticlesByAuthors (some s) envs st) = true ∧
    respAuthors (fetchArticlesByAuthors (some s) envs st)
      = (processAuthors ((runPairs (parseAuthorList s) envs).take k) initTotals st).1
        ++ ({ initAuthorResult ((parseAuthorList s).getD k "") with error := some m }
            :: (processAuthors ((runPairs (parseAuthorList s) envs).drop (k + 1))
                  (processAuthors ((runPairs (parseAuthorList s) envs).take k)
                      initTotals st).2.1
                  (processAuthors ((runPairs (parseAuthorList s) envs).take k)
                      initTotals st).2.2).1) := by
  have hs : s ≠ "" := by
    intro he
    rw [he] at h3
    simp [show parseAuthorList "" = [] from by decide] at h3
  have hjs : jsStrOrNull (some s) = some s := by simp [jsStrOrNull, hs]
  rcases hL : parseAuthorList s with _ | ⟨a, _ | ⟨b, _ | ⟨c, _ | ⟨d, tl⟩⟩⟩⟩ <;>
    rw [hL] at h3 <;> simp only [List.length_cons, List.length_nil] at h3 <;>
    try omega
  unfold fetchArticlesByAuthors
  rw [hjs]
  simp only [hL, List.length_cons, List.length_nil]
  rw [if_neg (by omega)]
  simp only [respIsOk, respAuthors, true_and]
  have hp : runPairs [a, b, c] envs = [(a, envs 0), (b, envs 1), (c, envs 2)] := rfl
  rw [hp]
  interval_cases k
  · rw [show ([(a, envs 0), (b, envs 1), (c, envs 2)].take 0) = [] from rfl,
        show ([(a, envs 0), (b, envs 1), (c, envs 2)].drop 1) = [(b, envs 1), (c, envs 2)] from rfl]
    simp only [processAuthors, processAuthor_error a (envs 0) m hfail, List.nil_append,
      List.getD]
    simp [processAuthors]
  · rw [show ([(a, envs 0), (b, envs 1), (c, envs 2)].take 1) = [(a, envs 0)] from rfl,
        show ([(a, envs 0), (b, envs 1), (c, envs 2)].drop 2) = [(c, envs 2)] from rfl]
    simp only [processAuthors, processAuthor_error b (envs 1) m hfail, List.getD]
    simp [processAuthors]
  · rw [show ([(a, envs 0), (b, envs 1), (c, envs 2)].take 2) = [(a, envs 0), (b, envs 1)] from rfl,
        show ([(a, envs 0), (b, envs 1), (c, envs 2)].drop 3) = [] from rfl]
    simp only [processAuthors, processAuthor_error c (envs 2) m hfail, List.getD]
    simp [processAuthors]

/-- Second author's search fails in transport; the others succeed. -/
def envsF : Nat → AuthorEnv := fun n => if n = 1 then envDown else envFive

/-- C4 witness: concrete run in which the middle author's search
raises while the others are processed normally. -/
theorem c4_partial_failure_w :
    respIsOk (fetchArticlesByAuthors (some "A,B,C") envsF stW) = true ∧
    respAuthors (fetchArticlesByAuthors (some "A,B,C") envsF stW)
      = (processAuthors ((runPairs (parseAuthorList "A,B,C") envsF).take 1) initTotals stW).1
        ++ ({ initAuthorResult ((parseAuthorList "A,B,C").getD 1 "")
                with error := some "Network Error: socket hang up" }
            :: (processAuthors ((runPairs (parseAuthorList "A,B,C") envsF).drop 2)
                  (processAuthors ((runPairs (parseAuthorList "A,B,C") envsF).take 1)
                      initTotals stW).2.1
                  (processAuthors ((runPairs (parseAuthorList "A,B,C") envsF).take 1)
                      initTotals stW).2.2).1) :=
  c4_partial_failure "A,B,C" envsF stW 1 "Network Error: socket hang up"
    (by decide) (by decide) rfl

/-! ## C5: classification of insert failures -/

/-- `includes` is stable under prepending text. -/
theorem listIncludes_append (sub : List Char) (xs : List Char) :
    ∀ t, listIncludes sub t = true → listIncludes sub (xs ++ t) = true := by
  induction xs with
  | nil => intro t h; simpa using h
  | cons c rest ih =>
    intro t h
    simp only [List.cons_append, listIncludes, Bool.or_eq_true]
    exact Or.inr (ih t h)

/-- The duplicate-entry message thrown by `articleModel.create` always
contains the substring tested by the orchestrator. -/
theorem strIncludes_dupMessage (g : Option String) :
    strIncludes (dupMessage g) "already exists" = true := by
  unfold strIncludes dupMessage
  rw [String.data_append, String.data_append, List.append_assoc]
  exact listIncludes_append _ _ _
    (listIncludes_append _ (jsStr g).data _ (by decide))

/-- A minimal valid publication for the persistence scenarios. -/
def pubW : Publication :=
  { google_scholar_id := some "gX", title := some "TX", authors := none,
    publication_year := none, journal := none, article_url := none, abstract := none,
    citation_count := 0, cites_id := none, pdf_url := none, cluster_id := none,
    publisher := none }

/-- C5 counterexample: an insert failure whose driver code is not
`ER_DUP_ENTRY` — hence a generic storage error per the claim's
taxonomy — is nonetheless counted as `already_exists` when its message
happens to contain the substring `"already exists"`, because the
orchestrator classifies insert failures by that substring alone. -/
theorem c5_counterexample :
    ("ETIMEDOUT" : String) ≠ "ER_DUP_ENTRY" ∧
    (saveLoop "A" [pubW] 0
        [.fail { code := "ETIMEDOUT", message := "connection already exists" }]
        (initAuthorResult "A") initTotals stW).1.already_exists = 1 ∧
    (saveLoop "A" [pubW] 0
        [.fail { code := "ETIMEDOUT", message := "connection reset" }]
        (initAuthorResult "A") initTotals stW).1.already_exists = 0 := by
  exact ⟨by decide, by decide, by decide⟩

/-- C5 (amended): a fresh candidate's insert failure is classified by
whether the surfaced message contains `"already exists"`.  An
`ER_DUP_ENTRY` failure always is (its rewrapped message carries the
substring), so it increments `already_exists` per-author and run-level
and is not surfaced as a failure; any other storage error whose
message avoids the substring increments no counter and is silently
skipped; an other-code error whose raw message contains the substring
is counted as `already_exists` as well.  In every case the loop
continues with the author's remaining candidates. -/
theorem c5_insert_failures :
    ∀ (name : String) (article : Publication) (rest : List Publication)
      (savedCount : Nat) (outcomes : List InsertOutcome) (e : DbErr)
      (ar : AuthorResult) (tot : RunTotals) (st : RunState),
      savedCount < 3 →
      existsByGoogleScholarId st article.google_scholar_id = false →
      ((e.code = "ER_DUP_ENTRY" →
          saveLoop name (article :: rest) savedCount (.fail e :: outcomes) ar tot st
            = saveLoop name rest savedCount outcomes
                { ar with already_exists := ar.already_exists + 1 }
                { tot with total_already_exists := tot.total_already_exists + 1 } st) ∧
       (e.code ≠ "ER_DUP_ENTRY" → strIncludes e.message "already exists" = false →
          saveLoop name (article :: rest) savedCount (.fail e :: outcomes) ar tot st
            = saveLoop name rest savedCount outcomes ar tot st) ∧
       (e.code ≠ "ER_DUP_ENTRY" → strIncludes e.message "already exists" = true →
          saveLoop name (article :: rest) savedCount (.fail e :: outcomes) ar tot st
            = saveLoop name rest savedCount outcomes
                { ar with already_exists := ar.already_exists + 1 }
                { tot with total_already_exists := tot.total_already_exists + 1 } st)) := by
  intro name article rest savedCount outcomes e ar tot st hlt hex
  have hcap : ¬ savedCount ≥ 3 := by omega
  refine ⟨?_, ?_, ?_⟩
  · intro hcode
    simp only [saveLoop, if_neg hcap, hex, Bool.false_eq_true, if_false, nextOutcome,
      createResult, if_pos hcode, strIncludes_dupMessage, if_true]
  · intro hcode hinc
    simp only [saveLoop, if_neg hcap, hex, Bool.false_eq_true, if_false, nextOutcome,
      createResult, if_neg hcode, hinc, if_false]
  · intro hcode hinc
    simp only [saveLoop, if_neg hcap, hex, Bool.false_eq_true, if_false, nextOutcome,
      createResult, if_neg hcode, hinc, if_true]

/-- C5 witness: the three classifications at concrete inputs. -/
theorem c5_insert_failures_w :
    (saveLoop "A" [pubW] 0 [.fail { code := "ER_DUP_ENTRY", message := "dup" }]
        (initAuthorResult "A") initTotals stW
      = saveLoop "A" [] 0 []
          { initAuthorResult "A" with already_exists := 1 }
          { initTotals with total_already_exists := 1 } stW) ∧
    (saveLoop "A" [pubW] 0 [.fail { code := "ETIMEDOUT", message := "connection reset" }]
        (initAuthorResult "A") initTotals stW
      = saveLoop "A" [] 0 [] (initAuthorResult "A") initTotals stW) := by
  constructor
  · have h := (c5_insert_failures "A" pubW [] 0 []
      { code := "ER_DUP_ENTRY", message := "dup" }
      (initAuthorResult "A") initTotals stW (by decide) (by decide)).1 (by decide)
    simpa using h
  · have h := (c5_insert_failures "A" pubW [] 0 []
      { code := "ETIMEDOUT", message := "connection reset" }
      (initAuthorResult "A") initTotals stW (by decide) (by decide)).2.1 (by decide) (by decide)
    simpa using h

/-! ## C7: failure categories of the search client -/

/-- C7 counterexample: a successful (2xx) response whose body carries
an embedded `error` field is surfaced as exactly the same thrown value
as a plain transport failure — the `Network Error:` category with 503
at the error handler — because the embedded-error `throw` inside the
`try` is re-caught by the function's own `catch`, which finds no
`error.response` on it.  It is therefore not a distinct
remote-reported category. -/
theorem c7_counterexample :
    serpSearch (.ok { error := some "bad key", organic_results := none })
        = .error "Network Error: bad key" ∧
    serpSearch (.transportError "bad key") = .error "Network Error: bad key" ∧
    errorStatus "Network Error: bad key" = 503 ∧
    strIncludes "Network Error: bad key" "SerpAPI Error" = false := by
  refine ⟨rfl, rfl, by decide, by decide⟩

/-- C7 (amended): every failing search raises a message in one of two
prefix categories.  `SerpAPI Error:` is raised exactly when the HTTP
layer reports an error response, carrying the response's embedded
error message when present; `Network Error:` is raised on timeout or
transport failure and also when a successful response's body carries
an embedded error field (whose message it carries after the prefix) —
so a body-embedded error is surfaced in the transport category, not as
a distinct remote one. -/
theorem c7_error_categories :
    (∀ m, serpSearch (.transportError m) = .error ("Network Error: " ++ m)) ∧
    (∀ d e, jsStrOrNull d.error = some e →
        serpSearch (.ok d) = .error ("Network Error: " ++ e)) ∧
    (∀ d, jsStrOrNull d.error = none → serpSearch (.ok d) = .ok d) ∧
    (∀ d hm, serpSearch (.httpError d hm)
        = .error ("SerpAPI Error: " ++ ((jsStrOrNull d.error).getD hm))) := by
  refine ⟨fun m => rfl, ?_, ?_, fun d hm => rfl⟩
  · intro d e h
    simp only [serpSearch]
    rw [h]
  · intro d h
    simp only [serpSearch]
    rw [h]

/-- C7 witness: the three failure paths at concrete outcomes. -/
theorem c7_error_categories_w :
    serpSearch (.transportError "timeout of 30000ms exceeded")
        = .error ("Network Error: " ++ "timeout of 30000ms exceeded") ∧
    serpSearch (.ok { error := some "bad api key", organic_results := none })
        = .error ("Network Error: " ++ "bad api key") ∧
    serpSearch (.httpError { error := none, organic_results := none } "Request failed")
        = .error ("SerpAPI Error: "
            ++ ((jsStrOrNull ({ error := none, organic_results := none }
                  : ResponseData).error).getD "Request failed")) :=
  ⟨c7_error_categories.1 _,
   c7_error_categories.2.1 _ "bad api key" (by decide),
   c7_error_categories.2.2.2 _ _⟩

/-! ## C8: the parser is total and best-effort -/

/-- The nested `publication_info?.summary` access (`undefined` both
when `publication_info` is absent and when it lacks a summary). -/
def summaryOf (r : RawResult) : Option String :=
  r.publication_info.bind PublicationInfoRaw.summary

/-- C8: the parser never raises and never drops: it produces exactly
one best-effort record per raw item (dropping is the filter's job),
and an absent or empty publication-info summary yields absent
`authors`, `journal`, `publication_year` and `publisher` fields rather
than an error. -/
theorem c8_parser_total :
    (∀ rs : List RawResult, (parseOrganicResults (some rs)).length = rs.length) ∧
    (∀ r : RawResult, (summaryOf r = none ∨ summaryOf r = some "") →
        (parseOrganicResult r).authors = none ∧
        (parseOrganicResult r).journal = none ∧
        (parseOrganicResult r).publication_year = none ∧
        (parseOrganicResult r).publisher = none) := by
  constructor
  · intro rs
    simp [parseOrganicResults]
  · intro r h
    unfold summaryOf at h
    unfold parseOrganicResult
    cases hpi : r.publication_info with
    | none => simp [jsStrOrNull]
    | some pi =>
      rw [hpi] at h
      simp only [Option.some_bind] at h
      have hs : parsePublicationInfo pi.summary = ⟨none, none, none, none⟩ := by
        rcases h with h | h <;> rw [h] <;> rfl
      simp [hs, jsStrOrNull]

/-- C8 witness: a raw item with no publication info parses to a record
with the four derived fields absent. -/
theorem c8_parser_total_w :
    (parseOrganicResult (mkRaw "g1")).authors = none ∧
    (parseOrganicResult (mkRaw "g1")).journal = none ∧
    (parseOrganicResult (mkRaw "g1")).publication_year = none ∧
    (parseOrganicResult (mkRaw "g1")).publisher = none :=
  c8_parser_total.2 (mkRaw "g1") (Or.inl rfl)

/-! ## C9: citation counts -/

/-- A raw result carrying a negative nested citation total. -/
def rawNegCited : RawResult :=
  { result_id := some "gN", title := some "TN", publication_info := none,
    link := none, snippet := none,
    inline_links := some { cited_by := some { total := some (-5), cites_id := none },
                           versions := none },
    resources := none }

/-- A raw result carrying a positive nested citation total. -/
def rawPosCited : RawResult :=
  { result_id := some "gP", title := some "TP", publication_info := none,
    link := none, snippet := none,
    inline_links := some { cited_by := some { total := some 7, cites_id := none },
                           versions := none },
    resources := none }

/-- C9 counterexample: the parser copies the source's nested citation
total verbatim (`|| 0` only replaces a missing or zero value), so a
source item whose nested total is negative yields a negative
`citation_count` — the claimed unconditional non-negativity does not
hold on the code. -/
theorem c9_counterexample :
    (parseOrganicResult rawNegCited).citation_count = -5 ∧ (-5 : Int) < 0 := by
  exact ⟨rfl, by decide⟩

/-- C9 (amended): `citation_count` equals the source's nested
citation total when one is present (0 stays 0) and defaults to 0 when
the nested field is missing; it is non-negative whenever the source
value is non-negative — but it is not clamped, so the unconditional
bound holds only on sources with non-negative totals. -/
theorem c9_citation_count (r : RawResult) :
    (parseOrganicResult r).citation_count = (citedByTotal r).getD 0 ∧
    (citedByTotal r = none → (parseOrganicResult r).citation_count = 0) ∧
    (∀ t, citedByTotal r = some t → 0 ≤ t → 0 ≤ (parseOrganicResult r).citation_count) := by
  have h1 : (parseOrganicResult r).citation_count = (citedByTotal r).getD 0 := rfl
  refine ⟨h1, ?_, ?_⟩
  · intro h
    rw [h1, h]
    rfl
  · intro t ht h0
    rw [h1, ht]
    simpa using h0

/-- C9 witness: a missing nested total yields 0; a non-negative total
stays non-negative. -/
theorem c9_citation_count_w :
    (parseOrganicResult (mkRaw "g2")).citation_count = 0 ∧
    0 ≤ (parseOrganicResult rawPosCited).citation_count :=
  ⟨(c9_citation_count (mkRaw "g2")).2.1 rfl,
   (c9_citation_count rawPosCited).2.2 7 rfl (by decide)⟩

/-! ## C10: sanitizeString -/

/-- No two adjacent characters are both JS whitespace. -/
def noConsecWs : List Char → Bool
  | [] => true
  | [_] => true
  | c1 :: c2 :: rest => !(isJsSpace c1 && isJsSpace c2) && noConsecWs (c2 :: rest)

/-- The first character, if any, is not JS whitespace. -/
def headNotWs : List Char → Bool
  | [] => true
  | c :: _ => !isJsSpace c

/-- The last character, if any, is not JS whitespace. -/
def lastNotWs (l : List Char) : Bool :=
  match l.getLast? with
  | none => true
  | some c => !isJsSpace c

theorem noConsecWs_tail {c : Char} {l : List Char} (h : noConsecWs (c :: l) = true) :
    noConsecWs l = true := by
  cases l with
  | nil => rfl
  | cons d rest =>
    simp only [noConsecWs, Bool.and_eq_true] at h
    exact h.2

theorem noConsecWs_cons_of_head {c : Char} {l : List Char}
    (hh : headNotWs l = true) (h : noConsecWs l = true) :
    noConsecWs (c :: l) = true := by
  cases l with
  | nil => rfl
  | cons d rest =>
    simp only [headNotWs] at hh
    simp only [noConsecWs, Bool.and_eq_true]
    exact ⟨by simp [hh], h⟩

theorem noConsecWs_cons_of_not {c : Char} {l : List Char}
    (hc : isJsSpace c = false) (h : noConsecWs l = true) :
    noConsecWs (c :: l) = true := by
  cases l with
  | nil => rfl
  | cons d rest =>
    simp only [noConsecWs, Bool.and_eq_true]
    exact ⟨by simp [hc], h⟩

/-- After the run-opening space has been emitted, the next emitted
character is never whitespace. -/
theorem headNotWs_collapseWsAux_true :
    ∀ l : List Char, headNotWs (collapseWsAux true l) = true := by
  intro l
  induction l with
  | nil => rfl
  | cons c rest ih =>
    simp only [collapseWsAux]
    by_cases hc : isJsSpace c = true
    · simpa [hc] using ih
    · simp only [Bool.not_eq_true] at hc
      simp [hc, headNotWs]

/-- The collapse pass never emits two adjacent whitespace
characters. -/
theorem noConsecWs_collapseWsAux :
    ∀ (l : List Char) (b : Bool), noConsecWs (collapseWsAux b l) = true := by
  intro l
  induction l with
  | nil => intro b; rfl
  | cons c rest ih =>
    intro b
    simp only [collapseWsAux]
    by_cases hc : isJsSpace c = true
    · cases b with
      | true => simpa [hc] using ih true
      | false =>
        simp only [hc, if_true, Bool.false_eq_true, List.singleton_append]
        exact noConsecWs_cons_of_head (headNotWs_collapseWsAux_true rest) (ih true)
    · simp only [Bool.not_eq_true] at hc
      simp only [hc, Bool.false_eq_true, if_false]
      exact noConsecWs_cons_of_not hc (ih false)

/-- The collapse pass preserves the non-whitespace characters. -/
theorem filter_collapseWsAux :
    ∀ (l : List Char) (b : Bool),
      (collapseWsAux b l).filter (fun c => !isJsSpace c)
        = l.filter (fun c => !isJsSpace c) := by
  intro l
  induction l with
  | nil => intro b; rfl
  | cons c rest ih =>
    intro b
    simp only [collapseWsAux]
    by_cases hc : isJsSpace c = true
    · cases b with
      | true => simp [List.filter, hc, ih true]
      | false =>
        simp [List.filter, hc, ih true, show isJsSpace ' ' = true from by decide]
    · simp only [Bool.not_eq_true] at hc
      simp [List.filter, hc, ih false]

/-- Dropping leading whitespace preserves `noConsecWs`. -/
theorem noConsecWs_dropWhile {l : List Char} (h : noConsecWs l = true) :
    noConsecWs (l.dropWhile isJsSpace) = true := by
  induction l with
  | nil => exact h
  | cons c rest ih =>
    by_cases hc : isJsSpace c = true
    · rw [List.dropWhile_cons_of_pos hc]
      exact ih (noConsecWs_tail h)
    · rw [List.dropWhile_cons_of_neg (by simpa using hc)]
      exact h

/-- A trailing-trim that returns nothing saw only whitespace. -/
theorem dropTrailingWs_eq_nil {l : List Char} (h : dropTrailingWs l = []) :
    ∀ c ∈ l, isJsSpace c = true := by
  induction l with
  | nil => intro c hc; cases hc
  | cons c rest ih =>
    simp only [dropTrailingWs] at h
    by_cases hr : (dropTrailingWs rest).isEmpty = true
    · rw [if_pos hr] at h
      intro d hd
      rw [List.mem_cons] at hd
      rcases hd with rfl | hd
      · by_cases hc : isJsSpace d = true
        · exact hc
        · rw [if_neg hc] at h
          cases h
      · exact ih (List.isEmpty_iff.mp hr) d hd
    · rw [if_neg hr] at h
      cases h

/-- The trailing trim preserves the head character. -/
theorem head?_dropTrailingWs {l : List Char} (h : dropTrailingWs l ≠ []) :
    (dropTrailingWs l).head? = l.head? := by
  cases l with
  | nil => simp [dropTrailingWs] at h
  | cons c rest =>
    simp only [dropTrailingWs] at h ⊢
    by_cases hr : (dropTrailingWs rest).isEmpty = true
    · rw [if_pos hr] at h ⊢
      by_cases hc : isJsSpace c = true
      · rw [if_pos hc] at h
        exact absurd rfl h
      · rw [if_neg hc]
        simp
    · rw [if_neg hr]
      simp

/-- The trailing trim preserves `noConsecWs`. -/
theorem noConsecWs_dropTrailingWs {l : List Char} (h : noConsecWs l = true) :
    noConsecWs (dropTrailingWs l) = true := by
  induction l with
  | nil => exact h
  | cons c rest ih =>
    simp only [dropTrailingWs]
    by_cases hr : (dropTrailingWs rest).isEmpty = true
    · rw [if_pos hr]
      by_cases hc : isJsSpace c = true
      · simp [hc, noConsecWs]
      · rw [if_neg hc]
        rfl
    · rw [if_neg hr]
      have hne : dropTrailingWs rest ≠ [] := fun he => hr (by simp [he])
      have hrec := ih (noConsecWs_tail h)
      cases hh : (dropTrailingWs rest).head? with
      | none => exact absurd (List.head?_eq_none_iff.mp hh) hne
      | some d =>
        have hd : rest.head? = some d := by rw [← head?_dropTrailingWs hne, hh]
        cases rest with
        | nil => cases hd
        | cons e rest2 =>
          simp only [List.head?_cons, Option.some.injEq] at hd
          subst hd
          obtain ⟨u, hu⟩ : ∃ u, dropTrailingWs (e :: rest2) = e :: u := by
            cases hu : dropTrailingWs (e :: rest2) with
            | nil => exact absurd hu hne
            | cons x u =>
              have hx := head?_dropTrailingWs hne
              rw [hu] at hx
              simp only [List.head?_cons, Option.some.injEq] at hx
              exact ⟨u, by rw [hx]⟩
          have h1 : (!(isJsSpace c && isJsSpace e)) = true := by
            have h2 : noConsecWs (c :: e :: rest2) = true := h
            simp only [noConsecWs, Bool.and_eq_true] at h2
            exact h2.1
          rw [hu]
          rw [hu] at hrec
          show (!(isJsSpace c && isJsSpace e) && noConsecWs (e :: u)) = true
          simp only [Bool.and_eq_true]
          exact ⟨h1, hrec⟩

/-- The trailing trim leaves no whitespace at the end. -/
theorem lastNotWs_dropTrailingWs (l : List Char) :
    lastNotWs (dropTrailingWs l) = true := by
  induction l with
  | nil => rfl
  | cons c rest ih =>
    simp only [dropTrailingWs]
    by_cases hr : (dropTrailingWs rest).isEmpty = true
    · rw [if_pos hr]
      by_cases hc : isJsSpace c = true
      · simp [hc, lastNotWs]
      · rw [if_neg hc]
        simp [lastNotWs, hc]
    · rw [if_neg hr]
      have hne : dropTrailingWs rest ≠ [] := fun he => hr (by simp [he])
      unfold lastNotWs at ih ⊢
      cases hg : (dropTrailingWs rest).getLast? with
      | none => exact absurd (List.getLast?_eq_none_iff.mp hg) hne
      | some d =>
        rw [List.getLast?_cons, hg]
        rw [hg] at ih
        exact ih

/-- Both trims preserve the non-whitespace characters. -/
theorem filter_dropTrailingWs (l : List Char) :
    (dropTrailingWs l).filter (fun c => !isJsSpace c)
      = l.filter (fun c => !isJsSpace c) := by
  induction l with
  | nil => rfl
  | cons c rest ih =>
    simp only [dropTrailingWs]
    by_cases hr : (dropTrailingWs rest).isEmpty = true
    · rw [if_pos hr]
      have hall := dropTrailingWs_eq_nil (List.isEmpty_iff.mp hr)
      have hrest : rest.filter (fun d => !isJsSpace d) = [] := by
        rw [List.filter_eq_nil_iff]
        intro a ha
        simp [hall a ha]
      by_cases hc : isJsSpace c = true
      · rw [if_pos hc]
        simp [List.filter, hc, hrest]
      · rw [if_neg hc]
        simp only [Bool.not_eq_true] at hc
        simp [List.filter, hc, hrest]
    · rw [if_neg hr]
      simp [List.filter, ih]

/-- The leading trim preserves the non-whitespace characters. -/
theorem filter_dropWhileWs (l : List Char) :
    (l.dropWhile isJsSpace).filter (fun c => !isJsSpace c)
      = l.filter (fun c => !isJsSpace c) := by
  induction l with
  | nil => rfl
  | cons c rest ih =>
    by_cases hc : isJsSpace c = true
    · rw [List.dropWhile_cons_of_pos hc]
      simp [List.filter, hc, ih]
    · rw [List.dropWhile_cons_of_neg (by simpa using hc)]

/-- A whitespace-only list collapses (from inside a run) to
nothing. -/
theorem collapseWsAux_true_all_ws {l : List Char}
    (h : ∀ c ∈ l, isJsSpace c = true) : collapseWsAux true l = [] := by
  induction l with
  | nil => rfl
  | cons c rest ih =>
    simp only [collapseWsAux, h c (by simp), if_true, List.nil_append]
    exact ih fun d hd => h d (by simp [hd])

/-- The leading trim leaves no whitespace at the front. -/
theorem headNotWs_dropWhile (l : List Char) :
    headNotWs (l.dropWhile isJsSpace) = true := by
  induction l with
  | nil => rfl
  | cons c rest ih =>
    by_cases hc : isJsSpace c = true
    · rw [List.dropWhile_cons_of_pos hc]
      exact ih
    · rw [List.dropWhile_cons_of_neg (by simpa using hc)]
      simpa [headNotWs] using hc

/-- The trailing trim preserves a whitespace-free front. -/
theorem headNotWs_dropTrailingWs {l : List Char} (h : headNotWs l = true) :
    headNotWs (dropTrailingWs l) = true := by
  cases he : dropTrailingWs l with
  | nil => rfl
  | cons x u =>
    have hne : dropTrailingWs l ≠ [] := by rw [he]; exact List.cons_ne_nil x u
    have hx := head?_dropTrailingWs hne
    rw [he] at hx
    cases l with
    | nil => simp at hx
    | cons c rest =>
      simp only [List.head?_cons, Option.some.injEq] at hx
      simpa [headNotWs, hx] using h

/-- C10: `sanitizeString` returns absent for absent or empty input;
for every non-empty input it returns a present string: whitespace-only
input yields the empty string (not absent), and every returned string
starts and ends with non-whitespace, contains no two adjacent
whitespace characters, and preserves the input's non-whitespace
characters in order (each maximal whitespace run having been collapsed
to one space before trimming). -/
theorem c10_sanitize :
    sanitizeString none = none ∧
    sanitizeString (some "") = none ∧
    (∀ s : String, s ≠ "" → (sanitizeString (some s)).isSome = true) ∧
    (∀ s : String, s ≠ "" → (∀ c ∈ s.data, isJsSpace c = true) →
        sanitizeString (some s) = some "") ∧
    (∀ s t : String, sanitizeString (some s) = some t →
        headNotWs t.data = true ∧ lastNotWs t.data = true ∧ noConsecWs t.data = true ∧
        t.data.filter (fun c => !isJsSpace c) = s.data.filter (fun c => !isJsSpace c)) := by
  refine ⟨rfl, rfl, ?_, ?_, ?_⟩
  · intro s hs
    simp [sanitizeString, hs]
  · intro s hs hall
    have hd : s.data ≠ [] := by
      intro h
      apply hs
      cases s with
      | mk data => simp only at h; rw [h]
    simp only [sanitizeString, if_neg hs]
    cases hdata : s.data with
    | nil => exact absurd hdata hd
    | cons c rest =>
      rw [hdata] at hall
      have hc := hall c (by simp)
      have hrest : collapseWsAux true rest = [] :=
        collapseWsAux_true_all_ws fun d hd2 => hall d (by simp [hd2])
      simp [collapseWs, collapseWsAux, hc, hrest, jsTrimL,
        show (List.dropWhile isJsSpace [' ']) = [] from by decide, dropTrailingWs]
  · intro s t h
    by_cases hs : s = ""
    · rw [hs] at h
      cases h
    · simp only [sanitizeString, if_neg hs, Option.some.injEq] at h
      have ht : t.data = jsTrimL (collapseWs s.data) := by rw [← h]
      rw [ht]
      unfold jsTrimL
      refine ⟨headNotWs_dropTrailingWs (headNotWs_dropWhile _),
              lastNotWs_dropTrailingWs _,
              noConsecWs_dropTrailingWs (noConsecWs_dropWhile (noConsecWs_collapseWsAux _ _)),
              ?_⟩
      rw [filter_dropTrailingWs, filter_dropWhileWs]
      exact filter_collapseWsAux s.data false

/-- C10 witness: a concrete mixed input and a whitespace-only
input. -/
theorem c10_sanitize_w :
    (sanitizeString (some "  a \t b ")).isSome = true ∧
    sanitizeString (some "   ") = some "" ∧
    (headNotWs (String.data "a b") = true ∧ lastNotWs (String.data "a b") = true ∧
     noConsecWs (String.data "a b") = true ∧
     (String.data "a b").filter (fun c => !isJsSpace c)
       = (String.data "  a \t b ").filter (fun c => !isJsSpace c)) :=
  ⟨c10_sanitize.2.2.1 "  a \t b " (by decide),
   c10_sanitize.2.2.2.1 "   " (by decide) (by decide),
   c10_sanitize.2.2.2.2 "  a \t b " "a b" (by decide)⟩

/-! ## C6: the summary-splitting algorithm -/

/-- C6 counterexample: `"A - x1999 2000, 1999 - C"` has the claimed
shape `"A - B, 1999 - C"` with `B = "x1999 2000"`, yet parsing yields
`year = 2000` (the boundary-anchored scan skips the `1999` glued to
`x` and matches the later `2000`) and
`journal = "x 2000, 1999"` (the strip regex carries no word
boundaries, so it deletes the first `1999` inside `B` rather than the
matched token), contradicting `year = 1999`, `journal = B`. -/
theorem c6_counterexample :
    parsePublicationInfo (some "A - x1999 2000, 1999 - C")
      = { authors := some "A", journal := some "x 2000, 1999",
          year := some 2000, publisher := some "C" } ∧
    ({ authors := some "A", journal := some "x 2000, 1999",
       year := some 2000, publisher := some "C" } : PubInfo)
      ≠ { authors := some "A", journal := some "x1999 2000",
          year := some 1999, publisher := some "C" } := by
  exact ⟨by decide, by decide⟩

/-- Scanning the character list of `xs ++ " - " ++ ys` never cuts
before position `|xs|`: no occurrence of the separator inside `xs`,
and no straddling occurrence (`xs` must not end in `" -"`). -/
def sepFreePlus : List Char → Bool
  | [] => true
  | c :: rest =>
    if c = ' ' && (rest.take 2 = ['-', ' '] || rest = ['-']) then false
    else sepFreePlus rest

/-- No occurrence of `" - "` anywhere in the list. -/
def sepFree : List Char → Bool
  | [] => true
  | c :: rest =>
    if c = ' ' && rest.take 2 = ['-', ' '] then false
    else sepFree rest

/-- The split scan walks over a separator-free-plus prefix and cuts
exactly at the separator that follows it. -/
theorem splitDashAux_append (xs : List Char) :
    ∀ (acc ys : List Char), sepFreePlus xs = true →
      splitDashAux (xs ++ ' ' :: '-' :: ' ' :: ys) acc
        = (acc.reverse ++ xs) :: splitDashAux ys [] := by
  induction xs with
  | nil =>
    intro acc ys _
    simp [splitDashAux]
  | cons c xs' ih =>
    intro acc ys hsf
    have hsf' : sepFreePlus xs' = true := by
      revert hsf
      simp only [sepFreePlus]
      split
      · intro h; cases h
      · exact id
    cases xs' with
    | nil =>
      simp only [List.nil_append, List.cons_append]
      simp only [splitDashAux]
      rw [if_neg (by simp)]
      simp [splitDashAux]
    | cons a xs2 =>
      cases xs2 with
      | nil =>
        have hna : ¬ (c = ' ' ∧ a = '-') := by
          rintro ⟨rfl, rfl⟩
          simp [sepFreePlus] at hsf
        simp only [List.cons_append, List.nil_append]
        simp only [splitDashAux]
        rw [if_neg (fun h => hna ⟨h.1, h.2.1⟩)]
        rw [if_neg (by simp)]
        simp
      | cons b xs3 =>
        have hnab : ¬ (c = ' ' ∧ a = '-' ∧ b = ' ') := by
          rintro ⟨rfl, rfl, rfl⟩
          simp [sepFreePlus] at hsf
        simp only [List.cons_append]
        simp only [splitDashAux]
        rw [if_neg hnab]
        have hrec := ih (c :: acc) ys hsf'
        simp only [List.cons_append] at hrec
        rw [hrec]
        simp

/-- A separator-free list is never cut by the split scan. -/
theorem splitDashAux_sepFree (xs : List Char) :
    ∀ acc, sepFree xs = true → splitDashAux xs acc = [acc.reverse ++ xs] := by
  induction xs with
  | nil => intro acc _; simp [splitDashAux]
  | cons c xs' ih =>
    intro acc hsf
    have hsf' : sepFree xs' = true := by
      revert hsf
      simp only [sepFree]
      split
      · intro h; cases h
      · exact id
    cases xs' with
    | nil => simp [splitDashAux]
    | cons a xs2 =>
      cases xs2 with
      | nil => simp [splitDashAux]
      | cons b xs3 =>
        have hnab : ¬ (c = ' ' ∧ a = '-' ∧ b = ' ') := by
          rintro ⟨rfl, rfl, rfl⟩
          simp [sepFree] at hsf
        simp only [splitDashAux]
        rw [if_neg hnab]
        have hrec := ih (c :: acc) hsf'
        rw [hrec]
        simp

/-- The character list of the literal `", 1999"`. -/
def yearTail : List Char := [',', ' ', '1', '9', '9', '9']

/-- No `(19|20)\d{2}` quadruple starts at any position. -/
def quadFree : List Char → Bool
  | [] => true
  | c :: rest => !(yearQuad? (c :: rest)).isSome && quadFree rest

theorem quadFree_tail {c : Char} {l : List Char} (h : quadFree (c :: l) = true) :
    quadFree l = true := by
  simp only [quadFree, Bool.and_eq_true] at h
  exact h.2

theorem quadFree_head {c : Char} {l : List Char} (h : quadFree (c :: l) = true) :
    yearQuad? (c :: l) = none := by
  simp only [quadFree, Bool.and_eq_true, Bool.not_eq_true'] at h
  exact Option.not_isSome_iff_eq_none.mp (by simp [h.1])

theorem quadFree_dropWhile {l : List Char} (p : Char → Bool) (h : quadFree l = true) :
    quadFree (l.dropWhile p) = true := by
  induction l with
  | nil => exact h
  | cons c rest ih =>
    by_cases hc : p c = true
    · rw [List.dropWhile_cons_of_pos hc]
      exact ih (quadFree_tail h)
    · rw [List.dropWhile_cons_of_neg (by simpa using hc)]
      exact h

/-- A quadruple cannot begin in the last three characters before the
`", 1999"` tail, because the comma and the space are not digits; so if
none begins at the head of `e`, none begins at the head of
`e ++ ", 1999"`. -/
theorem yearQuad_append_yearTail : ∀ {e : List Char}, yearQuad? e = none →
    yearQuad? (e ++ yearTail) = none := by
  intro e h
  match e with
  | [] => rfl
  | [a] =>
    show yearQuad? (a :: ',' :: ' ' :: '1' :: ['9', '9', '9']) = none
    simp [yearQuad?]
  | [a, b] =>
    show yearQuad? (a :: b :: ',' :: ' ' :: ['1', '9', '9', '9']) = none
    simp [yearQuad?, show (',').isDigit = false from rfl]
  | [a, b, c] =>
    show yearQuad? (a :: b :: c :: ',' :: [' ', '1', '9', '9', '9']) = none
    simp [yearQuad?, show (',').isDigit = false from rfl]
  | a :: b :: c :: d :: rest =>
    show yearQuad? (a :: b :: c :: d :: (rest ++ yearTail)) = none
    by_cases hcond : ((a = '1' ∧ b = '9') ∨ (a = '2' ∧ b = '0')) ∧ c.isDigit ∧ d.isDigit
    · exfalso
      simp only [yearQuad?, if_pos hcond] at h
      cases h
    · simp only [yearQuad?, if_neg hcond]

/-- The year scan lands on the `1999` of the tail whatever character
precedes it. -/
theorem findYearFrom_yearTail : ∀ prev, findYearFrom prev yearTail = some 1999 := by
  intro prev
  rfl

/-- Scanning across a quadruple-free prefix, the year scan finds the
`1999` of the tail. -/
theorem findYearFrom_append_yearTail (xs : List Char) :
    ∀ prev, quadFree xs = true → findYearFrom prev (xs ++ yearTail) = some 1999 := by
  induction xs with
  | nil => intro prev _; exact findYearFrom_yearTail prev
  | cons c xs' ih =>
    intro prev h
    have hq : yearQuad? (c :: (xs' ++ yearTail)) = none := by
      have := yearQuad_append_yearTail (quadFree_head h)
      simpa using this
    show findYearFrom prev (c :: (xs' ++ yearTail)) = some 1999
    simp only [findYearFrom, hq]
    exact ih (some c) (quadFree_tail h)

/-- A quadruple-free list contains no year token at all. -/
theorem findYearFrom_quadFree (l : List Char) :
    ∀ prev, quadFree l = true → findYearFrom prev l = none := by
  induction l with
  | nil => intro prev _; rfl
  | cons c rest ih =>
    intro prev h
    simp only [findYearFrom, quadFree_head h]
    exact ih (some c) (quadFree_tail h)

/-- The strip pattern matches nowhere inside a quadruple-free prefix
of `xs ++ ", 1999"` (the tail's comma blocks any straddle), so the
replace deletes exactly the tail. -/
theorem stripYearL_append_yearTail (xs : List Char) (h : quadFree xs = true) :
    stripYearL (xs ++ yearTail) = xs := by
  induction xs with
  | nil => rfl
  | cons c xs' ih =>
    have hd : ∀ d : List Char, quadFree d = true →
        (yearQuad? ((d ++ yearTail).dropWhile isJsSpace)).map Prod.snd = none := by
      intro d hdq
      rw [List.dropWhile_append]
      by_cases he : (d.dropWhile isJsSpace).isEmpty = true
      · rw [if_pos he]
        rfl
      · rw [if_neg he]
        cases hcase : d.dropWhile isJsSpace with
        | nil => rw [hcase] at he; cases he rfl
        | cons e0 e' =>
          have hqe : quadFree (e0 :: e') = true := by
            rw [← hcase]
            exact quadFree_dropWhile isJsSpace hdq
          rw [yearQuad_append_yearTail (quadFree_head hqe)]
          rfl
    have hmatch : matchStripAt ((c :: xs') ++ yearTail) = none := by
      unfold matchStripAt
      by_cases hc : c = ','
      · subst hc
        simp only [List.cons_append, List.head?_cons, if_pos rfl, List.tail_cons]
        exact hd xs' (quadFree_tail h)
      · simp only [List.cons_append, List.head?_cons,
          if_neg (fun he => hc (Option.some.injEq .. |>.mp he))]
        exact hd (c :: xs') h
    show stripYearL (c :: (xs' ++ yearTail)) = c :: xs'
    simp only [List.cons_append] at hmatch ⊢
    simp only [stripYearL, hmatch]
    rw [ih (quadFree_tail h)]

/-- Structure eta for strings. -/
theorem mkData (s : String) : String.mk s.data = s := rfl

/-- A list fixed by the leading trim stays a prefix of the trim of any
extension by a trim-fixed tail. -/
theorem dropWhile_append_self_of_head {l ys : List Char}
    (h : l.dropWhile isJsSpace = l) (hys : ys.dropWhile isJsSpace = ys) :
    (l ++ ys).dropWhile isJsSpace = l ++ ys := by
  cases l with
  | nil => simpa using hys
  | cons a l' =>
    have ha : isJsSpace a = false := by
      by_cases hs : isJsSpace a = true
      · exfalso
        rw [List.dropWhile_cons_of_pos hs] at h
        have hle := (List.dropWhile_sublist (l := l') isJsSpace).length_le
        rw [h] at hle
        simp at hle
      · simpa using hs
    rw [List.cons_append, List.dropWhile_cons_of_neg (by simp [ha])]

/-- The trailing trim ignores everything before a trim-fixed non-empty
tail. -/
theorem dropTrailingWs_append {ys : List Char} (hys : dropTrailingWs ys = ys)
    (hne : ys ≠ []) : ∀ xs, dropTrailingWs (xs ++ ys) = xs ++ ys := by
  intro xs
  induction xs with
  | nil => simpa using hys
  | cons c xs' ih =>
    show dropTrailingWs (c :: (xs' ++ ys)) = c :: (xs' ++ ys)
    simp only [dropTrailingWs]
    rw [ih]
    rw [if_neg (by simp [List.isEmpty_iff, hne])]

/-- `jsTrim` fixes `B ++ ", 1999"` when it fixes `B` at the front. -/
theorem jsTrimL_append_yearTail {B : List Char} (h1 : B.dropWhile isJsSpace = B) :
    jsTrimL (B ++ yearTail) = B ++ yearTail := by
  unfold jsTrimL
  rw [dropWhile_append_self_of_head h1 (by decide),
    dropTrailingWs_append (by decide) (by decide) B]

/-- `jsTrim` fixes a string both of whose component trims fix it. -/
theorem jsTrim_eq_self {s : String} (h1 : s.data.dropWhile isJsSpace = s.data)
    (h2 : dropTrailingWs s.data = s.data) : jsTrim s = s := by
  unfold jsTrim jsTrimL
  rw [h1, h2]

/-- A string with a non-empty character list is not `""`. -/
theorem ne_empty_of_data {s : String} (h : s.data ≠ []) : s ≠ "" :=
  fun he => h (by rw [he])

/-- C6 (amended): for summaries of the schema `"A - B, 1999 - C"` —
with `A`, `C` non-empty and trim-stable, `B` trim-stable, no
occurrence of the separator `" - "` inside or straddling the three
parts, and no `19xx/20xx` digit quadruple inside `B` — parsing yields
`authors = A`, `journal = B`, `year = 1999`, `publisher = C`.  In
general, when segment one contains no such quadruple at all,
`publication_year` is absent and `journal` is the full trimmed
segment; and when a year is found, the substring deleted to form the
journal is the first occurrence of an optional comma, a whitespace
run, and a `19xx/20xx` quadruple taken without regard to word
boundaries — possibly a different occurrence than the
boundary-anchored one that supplied the year, as
`"A - x1999 2000 - C"` shows. -/
theorem c6_parse_summary :
    (∀ A B C : String,
        A ≠ "" → C ≠ "" →
        A.data.dropWhile isJsSpace = A.data → dropTrailingWs A.data = A.data →
        B.data.dropWhile isJsSpace = B.data → dropTrailingWs B.data = B.data →
        C.data.dropWhile isJsSpace = C.data → dropTrailingWs C.data = C.data →
        sepFreePlus A.data = true → sepFreePlus (B.data ++ yearTail) = true →
        sepFree C.data = true → quadFree B.data = true →
        parsePublicationInfo (some (A ++ " - " ++ B ++ ", 1999 - " ++ C))
          = { authors := some A, journal := some B,
              year := some 1999, publisher := some C }) ∧
    (∀ s p1 : String, s ≠ "" → (jsSplitDash s).get? 1 = some p1 → p1 ≠ "" →
        quadFree (jsTrim p1).data = true →
        (parsePublicationInfo (some s)).year = none ∧
        (parsePublicationInfo (some s)).journal = some (jsTrim p1)) ∧
    parsePublicationInfo (some "A - x1999 2000 - C")
      = { authors := some "A", journal := some "x 2000", year := some 2000,
          publisher := some "C" } := by
  refine ⟨?_, ?_, by decide⟩
  · intro A B C hA0 hC0 hA1 hA2 hB1 hB2 hC1 hC2 hAsep hBsep hCsep hBq
    have hsdata0 : (A ++ " - " ++ B ++ ", 1999 - " ++ C).data
        = (((A.data ++ (' ' :: '-' :: [' '])) ++ B.data)
            ++ (yearTail ++ (' ' :: '-' :: [' ']))) ++ C.data := rfl
    have hsdata : (A ++ " - " ++ B ++ ", 1999 - " ++ C).data
        = A.data ++ ' ' :: '-' :: ' '
            :: ((B.data ++ yearTail) ++ ' ' :: '-' :: ' ' :: C.data) := by
      rw [hsdata0]
      simp [yearTail, List.append_assoc]
    have hs0 : (A ++ " - " ++ B ++ ", 1999 - " ++ C) ≠ "" := by
      apply ne_empty_of_data
      rw [hsdata]
      simp
    have hsplit : jsSplitDash (A ++ " - " ++ B ++ ", 1999 - " ++ C)
        = [A, String.mk (B.data ++ yearTail), C] := by
      unfold jsSplitDash
      rw [hsdata, splitDashAux_append A.data [] _ hAsep,
        splitDashAux_append (B.data ++ yearTail) [] _ hBsep,
        splitDashAux_sepFree C.data [] hCsep]
      simp [mkData]
    have hBtrim : jsTrim (String.mk (B.data ++ yearTail))
        = String.mk (B.data ++ yearTail) := by
      unfold jsTrim
      rw [show (String.mk (B.data ++ yearTail)).data = B.data ++ yearTail from rfl,
        jsTrimL_append_yearTail hB1]
    have hp1ne : String.mk (B.data ++ yearTail) ≠ "" := by
      apply ne_empty_of_data
      simp [yearTail]
    simp only [parsePublicationInfo]
    rw [if_neg hs0]
    simp only [hsplit, List.get?]
    rw [hBtrim]
    rw [if_neg hp1ne]
    rw [show (String.mk (B.data ++ yearTail)).data = B.data ++ yearTail from rfl]
    rw [findYearFrom_append_yearTail B.data none hBq]
    rw [stripYearL_append_yearTail B.data hBq]
    dsimp only
    rw [show (String.mk B.data) = B from rfl]
    rw [jsTrim_eq_self hB1 hB2]
    simp [jsStrOrNull, jsTrim_eq_self hA1 hA2, jsTrim_eq_self hC1 hC2, hA0, hC0]
  · intro s p1 hs hget hp1 hq
    simp only [parsePublicationInfo]
    rw [if_neg hs, hget]
    dsimp only
    rw [if_neg hp1]
    rw [findYearFrom_quadFree (jsTrim p1).data none hq]
    exact ⟨rfl, rfl⟩

/-- C6 witness: the schema at the README's own example strings, and
the no-year case at a concrete summary. -/
theorem c6_parse_summary_w :
    parsePublicationInfo (some ("JL Harper" ++ " - " ++ "Population biology of plants."
        ++ ", 1999 - " ++ "cabdirect.org"))
      = { authors := some "JL Harper", journal := some "Population biology of plants.",
          year := some 1999, publisher := some "cabdirect.org" } ∧
    ((parsePublicationInfo (some "A - no year here - C")).year = none ∧
     (parsePublicationInfo (some "A - no year here - C")).journal
        = some (jsTrim "no year here")) :=
  ⟨c6_parse_summary.1 "JL Harper" "Population biology of plants." "cabdirect.org"
      (by decide) (by decide) (by decide) (by decide) (by decide) (by decide)
      (by decide) (by decide) (by decide) (by decide) (by decide) (by decide),
   c6_parse_summary.2.1 "A - no year here - C" "no year here"
      (by decide) (by decide) (by decide) (by decide)⟩
